import Mathlib

/-!
Shallow embedding of the mince-pie strategy-planning game core
(`src/utils/commentary.ts` scoring section, `src/utils/gameData.ts`,
`src/components/DependencyLines.tsx`), together with theorems settling
the frozen claims about the Evaluator and the Edge Router.

Numeric conventions: the normalized 0..100 game coordinates are embedded
as rationals (every JavaScript double occurring there is rational), while
scores and pixel-space geometry are embedded as real numbers.  JavaScript
`Math.round` is `fun x => ⌊x + 1/2⌋` (halves round toward +∞).  In the
Edge Router, an arithmetic step whose exact-real denominator is zero
(division by a vanishing length, or a tangent evaluated where the cosine
vanishes) is marked by `Option.none` instead of being assigned a junk
value; this is what makes finiteness claims about the routine statable.
-/

namespace MincePie

/-- Evolution stage on the Wardley map X axis (game.types.ts). -/
inductive EvolutionStage where
  | genesis
  | custom
  | product
  | commodity
deriving DecidableEq, Repr

/-- Non-null component classification (game.types.ts has the nullable
type; nullability is `Option Classification` here). -/
inductive Classification where
  | build
  | buy
  | repurpose
deriving DecidableEq, Repr

/-- Position on the strategy canvas, both axes 0..100 (game.types.ts). -/
structure Position where
  x : ℚ
  y : ℚ
deriving DecidableEq, Repr

/-- A strategic component placed on the map (game.types.ts). -/
structure MapComponent where
  id : String
  name : String
  description : String
  correctEvolution : EvolutionStage
  correctClassification : Option Classification
  correctPosition : Position
  position : Option Position
  classification : Option Classification
  isPlaced : Bool
deriving DecidableEq, Repr

/-- Dependency connection between two components (game.types.ts). -/
structure Dependency where
  id : String
  fromComponentId : String
  toComponentId : String
deriving DecidableEq, Repr

/-- Evolution stage configuration with its X range (game.types.ts). -/
structure EvolutionConfig where
  key : EvolutionStage
  label : String
  description : String
  xRange : ℚ × ℚ
deriving DecidableEq, Repr

/-- gameData.ts EVOLUTION_STAGES. -/
def EVOLUTION_STAGES : List EvolutionConfig :=
  [ { key := .genesis, label := "Genesis",
      description := "Novel, uncertain, rapidly changing", xRange := (0, 25) },
    { key := .custom, label := "Custom Built",
      description := "Emerging, stabilizing", xRange := (25, 50) },
    { key := .product, label := "Product/Service",
      description := "Mature, well understood", xRange := (50, 75) },
    { key := .commodity, label := "Commodity/Utility",
      description := "Ubiquitous, standardized", xRange := (75, 100) } ]

/-- gameData.ts CORRECT_DEPENDENCIES: the reference correctness table. -/
def CORRECT_DEPENDENCIES : List (String × String) :=
  [ ("mince-pie-delivery", "elf-dashboard"),
    ("mince-pie-delivery", "delivery-routing"),
    ("elf-dashboard", "orchestration-framework"),
    ("delivery-routing", "cloud-compute"),
    ("ai-recipe-generator", "foundational-ai"),
    ("orchestration-framework", "coordination-centre"),
    ("orchestration-framework", "foundational-ai"),
    ("foundational-ai", "cloud-compute"),
    ("cloud-compute", "network-comms"),
    ("coordination-centre", "cloud-compute"),
    ("encounter-agents", "orchestration-framework"),
    ("trust-framework", "orchestration-framework") ]

/-- The for loop of getEvolutionStageFromX: first stage whose half-open
X range contains x, else the commodity default after the loop. -/
def findStageFromX : List EvolutionConfig → ℚ → EvolutionStage
  | [], _ => .commodity
  | stage :: rest, x =>
      if stage.xRange.1 ≤ x ∧ x < stage.xRange.2 then stage.key
      else findStageFromX rest x

/-- commentary.ts getEvolutionStageFromX. -/
def getEvolutionStageFromX (x : ℚ) : EvolutionStage :=
  findStageFromX EVOLUTION_STAGES x

/-- The callback passed to CORRECT_DEPENDENCIES.some in
calculateDependencyScore and in the dependency-master badge check:
a declared dependency matches a table entry in either orientation. -/
def isCorrectDependency (dep : Dependency) : Bool :=
  CORRECT_DEPENDENCIES.any fun entry =>
    (dep.fromComponentId == entry.1 && dep.toComponentId == entry.2) ||
    (dep.fromComponentId == entry.2 && dep.toComponentId == entry.1)

/-- commentary.ts WEIGHTS (ScoringWeights). -/
structure ScoringWeights where
  positionAccuracy : ℝ
  classificationAccuracy : ℝ
  dependencyLogic : ℝ
  completionBonus : ℝ

/-- commentary.ts WEIGHTS values. -/
def WEIGHTS : ScoringWeights :=
  { positionAccuracy := 30
    classificationAccuracy := 30
    dependencyLogic := 25
    completionBonus := 15 }

/-- commentary.ts calculateDistance (Euclidean distance). -/
noncomputable def calculateDistance (pos1 pos2 : Position) : ℝ :=
  let dx : ℝ := (pos1.x : ℝ) - (pos2.x : ℝ)
  let dy : ℝ := (pos1.y : ℝ) - (pos2.y : ℝ)
  Real.sqrt (dx * dx + dy * dy)

/-- One iteration of the calculatePositionScore loop body: the amount
added to totalScore for one placed component (0 for the continue branch,
which never fires on the filtered list). -/
noncomputable def componentPositionScore (component : MapComponent) : ℝ :=
  match component.position with
  | none => 0
  | some pos =>
      let distance := calculateDistance pos component.correctPosition
      let maxDistance : ℝ := 141
      let normalizedDistance := min (distance / maxDistance) 1
      (1 - normalizedDistance) ^ 2 * 100

/-- commentary.ts calculatePositionScore. -/
noncomputable def calculatePositionScore (components : List MapComponent) : ℝ :=
  let placedComponents :=
    components.filter fun c => c.isPlaced && c.position.isSome
  if placedComponents.length = 0 then 0
  else
    let totalScore :=
      placedComponents.foldl (fun acc c => acc + componentPositionScore c) 0
    totalScore / placedComponents.length * (WEIGHTS.positionAccuracy / 100)

/-- commentary.ts calculateClassificationScore. -/
noncomputable def calculateClassificationScore (components : List MapComponent) : ℝ :=
  let classifiedComponents := components.filter fun c => c.classification.isSome
  if classifiedComponents.length = 0 then 0
  else
    let correctClassifications :=
      (classifiedComponents.filter fun c =>
        c.classification == c.correctClassification).length
    (correctClassifications : ℝ) / (classifiedComponents.length : ℝ) *
      WEIGHTS.classificationAccuracy

/-- commentary.ts calculateDependencyScore. -/
noncomputable def calculateDependencyScore (dependencies : List Dependency) : ℝ :=
  if dependencies.length = 0 then 0
  else
    let correctDependencies := dependencies.countP isCorrectDependency
    let accuracy :=
      (correctDependencies : ℝ) /
        ((max dependencies.length CORRECT_DEPENDENCIES.length : ℕ) : ℝ)
    accuracy * WEIGHTS.dependencyLogic

/-- commentary.ts calculateCompletionBonus. -/
noncomputable def calculateCompletionBonus (components : List MapComponent) : ℝ :=
  let allPlaced := components.all fun c => c.isPlaced
  let allClassified := components.all fun c => c.classification.isSome
  if allPlaced && allClassified then WEIGHTS.completionBonus
  else
    let placedFraction : ℝ :=
      ((components.filter fun c => c.isPlaced).length : ℝ) /
        (components.length : ℝ)
    let classifiedFraction : ℝ :=
      ((components.filter fun c => c.classification.isSome).length : ℝ) /
        (components.length : ℝ)
    (placedFraction + classifiedFraction) / 2 * WEIGHTS.completionBonus

/-- JavaScript Math.round: halves round toward positive infinity. -/
noncomputable def jsRound (x : ℝ) : ℤ := ⌊x + 1 / 2⌋

/-- commentary.ts calculateTotalScore. -/
noncomputable def calculateTotalScore (components : List MapComponent)
    (dependencies : List Dependency) : ℤ :=
  jsRound (calculatePositionScore components +
    calculateClassificationScore components +
    calculateDependencyScore dependencies +
    calculateCompletionBonus components)

/-- commentary.ts checkBadgeEarned, with each switch case embedded as the
proposition that the returned boolean is true. -/
def checkBadgeEarned (badgeId : String) (components : List MapComponent)
    (dependencies : List Dependency) : Prop :=
  match badgeId with
  | "cloud-wisdom" =>
      match components.find? fun c => c.id == "cloud-compute" with
      | none => False
      | some cloudCompute =>
          match cloudCompute.position with
          | none => False
          | some pos =>
              getEvolutionStageFromX pos.x = .commodity ∧
                cloudCompute.classification = some .buy
  | "innovation-star" =>
      ∀ c ∈ components.filter fun c => c.correctEvolution == EvolutionStage.genesis,
        match c.position with
        | none => False
        | some pos =>
            getEvolutionStageFromX pos.x = .genesis ∧
              c.classification = some .build
  | "reindeer-efficiency" =>
      match components.find? fun c =>
          c.correctClassification == some Classification.repurpose with
      | none => False
      | some repurposeComponent =>
          repurposeComponent.classification = some .repurpose
  | "strategic-mapper" =>
      (70 : ℤ) ≤ calculateTotalScore components dependencies
  | "dependency-master" =>
      5 ≤ (dependencies.filter isCorrectDependency).length
  | _ => False

/-- A pixel-space point on the canvas (DependencyLines.tsx). -/
structure Point where
  x : ℝ
  y : ℝ

/-- DependencyLines.tsx CARD_WIDTH. -/
def CARD_WIDTH : ℝ := 190

/-- DependencyLines.tsx CARD_HEIGHT. -/
def CARD_HEIGHT : ℝ := 120

/-- DependencyLines.tsx ARROWHEAD_LENGTH. -/
def ARROWHEAD_LENGTH : ℝ := 10

/-- JavaScript Math.atan2 over exact reals (the negative-zero cases of
the double type collapse onto the y = 0 cases here). -/
noncomputable def atan2 (y x : ℝ) : ℝ :=
  if 0 < x then Real.arctan (y / x)
  else if x < 0 then
    if 0 ≤ y then Real.arctan (y / x) + Real.pi
    else Real.arctan (y / x) - Real.pi
  else
    if 0 < y then Real.pi / 2
    else if y < 0 then -(Real.pi / 2)
    else 0

/-- DependencyLines.tsx getEdgeIntersection, checked: a step whose
exact-real computation divides by zero — the tangent evaluated where the
cosine vanishes, a division by a vanishing tangent, or the unit vector of
a zero-length direction — yields none instead of a junk value.  The
source has no guard at any of these spots; at run time the corresponding
IEEE computation silently produces a garbage-magnitude or non-finite
coordinate there. -/
noncomputable def getEdgeIntersection (fromPoint toPoint : Point) : Option Point :=
  let dx := toPoint.x - fromPoint.x
  let dy := toPoint.y - fromPoint.y
  let angle := atan2 dy dx
  let halfWidth := CARD_WIDTH / 2
  let halfHeight := CARD_HEIGHT / 2
  let absAngle := |angle|
  let cardAspect := atan2 halfHeight halfWidth
  let intersection : Option Point :=
    if absAngle < cardAspect then
      -- right edge: intersectY needs tan angle, defined iff cos angle ≠ 0
      if Real.cos angle = 0 then none
      else some ⟨toPoint.x - halfWidth, toPoint.y - halfWidth * Real.tan angle⟩
    else if Real.pi - cardAspect < absAngle then
      -- left edge
      if Real.cos angle = 0 then none
      else some ⟨toPoint.x + halfWidth, toPoint.y + halfWidth * Real.tan angle⟩
    else if 0 < angle then
      -- bottom edge: divides by tan angle, defined and nonzero iff
      -- cos angle ≠ 0 and sin angle ≠ 0
      if Real.cos angle = 0 ∨ Real.sin angle = 0 then none
      else some ⟨toPoint.x - halfHeight / Real.tan angle, toPoint.y - halfHeight⟩
    else
      -- top edge
      if Real.cos angle = 0 ∨ Real.sin angle = 0 then none
      else some ⟨toPoint.x - halfHeight / Real.tan angle, toPoint.y + halfHeight⟩
  let lineLength := Real.sqrt (dx * dx + dy * dy)
  if lineLength = 0 then none
  else
    intersection.map fun p =>
      ⟨p.x - dx / lineLength * ARROWHEAD_LENGTH,
       p.y - dy / lineLength * ARROWHEAD_LENGTH⟩

/-- The per-dependency rendering step of the DependencyLines body: the
segment drawn for one dependency is (fromPos, getEdgeIntersection fromPos
toCenter); only the destination is clipped. -/
noncomputable def dependencySegment (fromPos toCenter : Point) :
    Option (Point × Point) :=
  (getEdgeIntersection fromPos toCenter).map fun toPos => (fromPos, toPos)

/-! Example components used to instantiate claims on concrete inputs. -/

/-- A component that is placed but not classified. -/
def placedOnly : MapComponent :=
  { id := "placed-only", name := "", description := ""
    correctEvolution := .product, correctClassification := some .build
    correctPosition := ⟨0, 0⟩, position := some ⟨0, 0⟩
    classification := none, isPlaced := true }

/-- A component that is classified (correctly) but not placed. -/
def classifiedOnly : MapComponent :=
  { id := "classified-only", name := "", description := ""
    correctEvolution := .product, correctClassification := some .build
    correctPosition := ⟨0, 0⟩, position := none
    classification := some .build, isPlaced := false }

/-- A component that is neither placed nor classified. -/
def untouched : MapComponent :=
  { id := "untouched", name := "", description := ""
    correctEvolution := .product, correctClassification := some .build
    correctPosition := ⟨0, 0⟩, position := none
    classification := none, isPlaced := false }

/-- The cloud-compute component classified buy and dropped at the
out-of-range X coordinate 150. -/
def cloudOutOfRange : MapComponent :=
  { id := "cloud-compute", name := "Cloud Compute and Storage"
    description := "", correctEvolution := .commodity
    correctClassification := some .buy, correctPosition := ⟨85, 25⟩
    position := some ⟨150, 20⟩, classification := some .buy
    isPlaced := true }

/-! Helper lemmas about the evolution-stage lookup. -/

/-- The lookup answers genesis exactly on the genesis X range. -/
theorem getEvolutionStageFromX_genesis_iff (x : ℚ) :
    getEvolutionStageFromX x = .genesis ↔ 0 ≤ x ∧ x < 25 := by
  simp only [getEvolutionStageFromX, EVOLUTION_STAGES, findStageFromX]
  split_ifs with h1 h2 h3 h4 <;> simp_all

/-- Outside the tiled range the loop falls through to the commodity
default. -/
theorem getEvolutionStageFromX_out_of_range (x : ℚ) (hx : x < 0 ∨ 100 ≤ x) :
    getEvolutionStageFromX x = .commodity := by
  simp only [getEvolutionStageFromX, EVOLUTION_STAGES, findStageFromX]
  split_ifs with h1 h2 h3 h4
  · exfalso; rcases hx with h | h
    · linarith [h1.1]
    · linarith [h1.2]
  · exfalso; rcases hx with h | h
    · linarith [h2.1]
    · linarith [h2.2]
  · exfalso; rcases hx with h | h
    · linarith [h3.1]
    · linarith [h3.2]
  · rfl
  · rfl

/-- C7: the genesis-build achievement (innovation-star) holds iff every
item whose target evolution is genesis is placed with its X coordinate
inside the genesis X range [0, 25) and classified build; a collection
with no genesis-target item satisfies it vacuously, witnessed by the
concrete singleton collection of a product-tier component. -/
theorem c7_innovation_star (components : List MapComponent)
    (dependencies : List Dependency) :
    (checkBadgeEarned "innovation-star" components dependencies ↔
      ∀ c ∈ components, c.correctEvolution = .genesis →
        ∃ pos, c.position = some pos ∧ (0 ≤ pos.x ∧ pos.x < 25) ∧
          c.classification = some .build) ∧
    checkBadgeEarned "innovation-star" [placedOnly] [] := by
  constructor
  · show (∀ c ∈ components.filter fun c =>
        c.correctEvolution == EvolutionStage.genesis, _) ↔ _
    constructor
    · intro h c hc hgen
      have hmem : c ∈ components.filter fun c =>
          c.correctEvolution == EvolutionStage.genesis :=
        List.mem_filter.mpr ⟨hc, by simp [hgen]⟩
      have hbody := h c hmem
      cases hpos : c.position with
      | none => rw [hpos] at hbody; exact absurd hbody (by simp)
      | some pos =>
          rw [hpos] at hbody
          refine ⟨pos, rfl, ?_, ?_⟩
          · exact (getEvolutionStageFromX_genesis_iff pos.x).mp hbody.1
          · exact hbody.2
    · intro h c hc
      obtain ⟨hmem, hgen⟩ := List.mem_filter.mp hc
      obtain ⟨pos, hpos, hrange, hclass⟩ :=
        h c hmem (by simpa using hgen)
      rw [hpos]
      exact ⟨(getEvolutionStageFromX_genesis_iff pos.x).mpr hrange, hclass⟩
  · show ∀ c ∈ [placedOnly].filter fun c =>
        c.correctEvolution == EvolutionStage.genesis, _
    intro c hc
    simp [placedOnly] at hc

/-- C8: the repurpose achievement (reindeer-efficiency) is keyed off the
first item whose target classification is repurpose: whenever the
collection splits as l1 ++ c :: l2 with no repurpose target in l1 and c
targeted repurpose, the badge holds iff c is actually classified
repurpose; and over a collection with no repurpose-target item at all it
is false, not vacuously true. -/
theorem c8_reindeer_efficiency (components : List MapComponent)
    (dependencies : List Dependency) :
    (∀ (l1 : List MapComponent) (c : MapComponent) (l2 : List MapComponent),
      components = l1 ++ c :: l2 →
      (∀ c1 ∈ l1, c1.correctClassification ≠ some .repurpose) →
      c.correctClassification = some .repurpose →
      (checkBadgeEarned "reindeer-efficiency" components dependencies ↔
        c.classification = some .repurpose)) ∧
    ((∀ c ∈ components, c.correctClassification ≠ some .repurpose) →
      ¬ checkBadgeEarned "reindeer-efficiency" components dependencies) := by
  constructor
  · intro l1 c l2 hsplit hl1 hc
    have hfind : components.find? (fun c =>
        c.correctClassification == some Classification.repurpose) = some c := by
      subst hsplit
      induction l1 with
      | nil => simp [List.find?_cons, hc]
      | cons head tail ih =>
          have hhead : (head.correctClassification ==
              some Classification.repurpose) = false := by
            simpa using hl1 head (by simp)
          rw [List.cons_append, List.find?_cons, hhead]
          exact ih fun c1 h1 => hl1 c1 (by simp [h1])
    show (match components.find? fun c =>
        c.correctClassification == some Classification.repurpose with
      | none => False
      | some repurposeComponent =>
          repurposeComponent.classification = some Classification.repurpose) ↔ _
    rw [hfind]
  · intro hnone
    have hfind : (components.find? fun c =>
        c.correctClassification == some Classification.repurpose) = none := by
      rw [List.find?_eq_none]
      intro c hc
      simpa using hnone c hc
    show ¬ (match components.find? fun c =>
        c.correctClassification == some Classification.repurpose with
      | none => False
      | some repurposeComponent =>
          repurposeComponent.classification = some Classification.repurpose)
    rw [hfind]
    exact fun h => h

/-- C10: on every X coordinate outside [0, 100) — negative or at least
100 — the evolution-stage lookup answers commodity, so the cloud-wisdom
achievement holds for the cloud-compute item classified buy and dropped
at any such X. -/
theorem c10_out_of_range_cloud_wisdom (x : ℚ) (hx : x < 0 ∨ 100 ≤ x) :
    getEvolutionStageFromX x = .commodity ∧
    ∀ (components : List MapComponent) (dependencies : List Dependency)
      (c : MapComponent) (y : ℚ),
      components.find? (fun c => c.id == "cloud-compute") = some c →
      c.position = some ⟨x, y⟩ →
      c.classification = some .buy →
      checkBadgeEarned "cloud-wisdom" components dependencies := by
  refine ⟨getEvolutionStageFromX_out_of_range x hx, ?_⟩
  intro components dependencies c y hfind hpos hclass
  show match components.find? fun c => c.id == "cloud-compute" with
    | none => False
    | some cloudCompute =>
        match cloudCompute.position with
        | none => False
        | some pos =>
            getEvolutionStageFromX pos.x = .commodity ∧
              cloudCompute.classification = some .buy
  rw [hfind]
  show match c.position with
    | none => False
    | some pos =>
        getEvolutionStageFromX pos.x = EvolutionStage.commodity ∧
          c.classification = some Classification.buy
  rw [hpos]
  exact ⟨getEvolutionStageFromX_out_of_range x hx, hclass⟩

/-- C10 witness: the lookup at X = 150 answers commodity and the
cloud-wisdom achievement holds for the concrete out-of-range item. -/
theorem c10_witness :
    getEvolutionStageFromX 150 = .commodity ∧
    checkBadgeEarned "cloud-wisdom" [cloudOutOfRange] [] := by
  have h100 : (100 : ℚ) ≤ 150 := by norm_num
  refine ⟨(c10_out_of_range_cloud_wisdom 150 (Or.inr h100)).1, ?_⟩
  exact (c10_out_of_range_cloud_wisdom 150 (Or.inr h100)).2
    [cloudOutOfRange] [] cloudOutOfRange 20 (by rfl) rfl rfl

/-- The two-orientation test of the code coincides with membership of either
orientation of the declared pair in the reference table. -/
theorem isCorrectDependency_iff (dep : Dependency) :
    isCorrectDependency dep = true ↔
      ((dep.fromComponentId, dep.toComponentId) ∈ CORRECT_DEPENDENCIES ∨
        (dep.toComponentId, dep.fromComponentId) ∈ CORRECT_DEPENDENCIES) := by
  simp only [isCorrectDependency, List.any_eq_true, Bool.or_eq_true,
    Bool.and_eq_true, beq_iff_eq]
  constructor
  · rintro ⟨⟨e1, e2⟩, hmem, (⟨h1, h2⟩ | ⟨h1, h2⟩)⟩
    · exact Or.inl (by rw [h1, h2]; exact hmem)
    · exact Or.inr (by rw [h1, h2]; exact hmem)
  · rintro (h | h)
    · exact ⟨(dep.fromComponentId, dep.toComponentId), h, Or.inl ⟨rfl, rfl⟩⟩
    · exact ⟨(dep.toComponentId, dep.fromComponentId), h, Or.inr ⟨rfl, rfl⟩⟩

/-- Boolean form of the previous lemma. -/
theorem isCorrectDependency_eq_decide (dep : Dependency) :
    isCorrectDependency dep =
      decide ((dep.fromComponentId, dep.toComponentId) ∈ CORRECT_DEPENDENCIES ∨
        (dep.toComponentId, dep.fromComponentId) ∈ CORRECT_DEPENDENCIES) := by
  by_cases h : (dep.fromComponentId, dep.toComponentId) ∈ CORRECT_DEPENDENCIES ∨
      (dep.toComponentId, dep.fromComponentId) ∈ CORRECT_DEPENDENCIES
  · rw [(isCorrectDependency_iff dep).mpr h, decide_eq_true h]
  · rw [decide_eq_false h]
    rcases hb : isCorrectDependency dep with _ | _
    · rfl
    · exact absurd ((isCorrectDependency_iff dep).mp hb) h

/-- C2: the dependency sub-score is (correct / max(declared, 12)) * 25,
where a declared relationship is correct when its unordered id pair
matches a reference-table entry in either orientation; the table has 12
entries, zero declared relationships give 0, and three declared
relationships all matching the table give 25/4 = 6.25. -/
theorem c2_dependency_score (dependencies : List Dependency) :
    calculateDependencyScore dependencies =
      ((dependencies.countP fun dep =>
          decide ((dep.fromComponentId, dep.toComponentId) ∈ CORRECT_DEPENDENCIES ∨
            (dep.toComponentId, dep.fromComponentId) ∈ CORRECT_DEPENDENCIES)
          : ℕ) : ℝ) /
        ((max dependencies.length 12 : ℕ) : ℝ) * 25 ∧
    calculateDependencyScore [] = 0 ∧
    calculateDependencyScore
      [⟨"d1", "mince-pie-delivery", "delivery-routing"⟩,
       ⟨"d2", "foundational-ai", "ai-recipe-generator"⟩,
       ⟨"d3", "cloud-compute", "network-comms"⟩] = 25 / 4 := by
  have hlen12 : CORRECT_DEPENDENCIES.length = 12 := rfl
  have hcongr : ∀ l : List Dependency,
      (l.countP fun dep =>
        decide ((dep.fromComponentId, dep.toComponentId) ∈ CORRECT_DEPENDENCIES ∨
          (dep.toComponentId, dep.fromComponentId) ∈ CORRECT_DEPENDENCIES)) =
      l.countP isCorrectDependency := by
    intro l
    exact List.countP_congr fun dep _ => by rw [isCorrectDependency_eq_decide]
  refine ⟨?_, ?_, ?_⟩
  · rw [hcongr]
    by_cases h : dependencies.length = 0
    · rw [List.length_eq_zero] at h
      subst h
      simp [calculateDependencyScore]
    · simp only [calculateDependencyScore, if_neg h, hlen12]
      rfl
  · simp [calculateDependencyScore]
  · have hcount :
        ([⟨"d1", "mince-pie-delivery", "delivery-routing"⟩,
          ⟨"d2", "foundational-ai", "ai-recipe-generator"⟩,
          ⟨"d3", "cloud-compute", "network-comms"⟩] :
            List Dependency).countP isCorrectDependency = 3 := by decide
    simp only [calculateDependencyScore, hcount]
    norm_num [CORRECT_DEPENDENCIES, WEIGHTS]

/-- C9: the classification sub-score is the count of correctly
classified items over the count of classified items, times the weight 30
(with zero classified items giving 0, here written with the junk value
0 / 0 = 0 of real division); prepending an unclassified item never
changes it; and two correctly classified items among four (the other two
unclassified) give the full 30. -/
theorem c9_classification_score (components : List MapComponent) :
    calculateClassificationScore components =
      ((components.countP fun c =>
          c.classification.isSome &&
            (c.classification == c.correctClassification) : ℕ) : ℝ) /
        ((components.countP fun c => c.classification.isSome : ℕ) : ℝ) * 30 ∧
    (∀ c : MapComponent,
      calculateClassificationScore
          ({ c with classification := none } :: components) =
        calculateClassificationScore components) ∧
    calculateClassificationScore
      [classifiedOnly, classifiedOnly, untouched, untouched] = 30 := by
  refine ⟨?_, ?_, ?_⟩
  · simp only [calculateClassificationScore, List.countP_eq_length_filter,
      List.filter_filter]
    by_cases h : (components.filter fun c => c.classification.isSome).length = 0
    · rw [if_pos h, h]
      have hz : (components.filter fun c =>
          c.classification.isSome &&
            (c.classification == c.correctClassification)).length = 0 := by
        refine Nat.le_zero.mp (le_trans ?_ (Nat.le_of_eq h))
        rw [← List.countP_eq_length_filter, ← List.countP_eq_length_filter]
        exact List.countP_mono_left fun c _ hc => (Bool.and_elim_left hc)
      rw [hz]
      norm_num
    · rw [if_neg h]
      have hpred : (components.filter fun c =>
            (c.classification == c.correctClassification) &&
              c.classification.isSome) =
          components.filter fun c =>
            c.classification.isSome &&
              (c.classification == c.correctClassification) := by
        apply List.filter_congr
        intro c _
        exact Bool.and_comm _ _
      rw [hpred]
      rfl
  · intro c
    have hnone : (({ c with classification := none } : MapComponent) ::
        components).filter (fun c => c.classification.isSome) =
        components.filter fun c => c.classification.isSome := by
      simp [List.filter_cons]
    simp only [calculateClassificationScore, hnone]
  · have h2 : ([classifiedOnly, classifiedOnly, untouched, untouched] :
        List MapComponent).filter (fun c => c.classification.isSome) =
        [classifiedOnly, classifiedOnly] := by decide
    simp only [calculateClassificationScore, h2]
    have h2b : ([classifiedOnly, classifiedOnly] :
        List MapComponent).filter (fun c =>
          c.classification == c.correctClassification) =
        [classifiedOnly, classifiedOnly] := by decide
    rw [h2b]
    norm_num [WEIGHTS]

/-- C6: the completion bonus is the full weight 15 when every item is
both placed and classified, and otherwise the mean of the placed and
classified fractions times 15; with 11 items of which 5 are placed and 5
are classified it is 75/11, about 6.8. -/
theorem c6_completion_bonus (components : List MapComponent) :
    calculateCompletionBonus components =
      (if (components.all fun c => c.isPlaced) &&
          (components.all fun c => c.classification.isSome) then (15 : ℝ)
       else
         (((components.filter fun c => c.isPlaced).length : ℝ) /
             (components.length : ℝ) +
           ((components.filter fun c => c.classification.isSome).length : ℝ) /
             (components.length : ℝ)) / 2 * 15) ∧
    calculateCompletionBonus
      [placedOnly, placedOnly, placedOnly, placedOnly, placedOnly,
       classifiedOnly, classifiedOnly, classifiedOnly, classifiedOnly,
       classifiedOnly, untouched] = 75 / 11 := by
  constructor
  · rfl
  · have hall : (([placedOnly, placedOnly, placedOnly, placedOnly, placedOnly,
        classifiedOnly, classifiedOnly, classifiedOnly, classifiedOnly,
        classifiedOnly, untouched] : List MapComponent).all fun c =>
          c.isPlaced) = false := by decide
    have hp : ([placedOnly, placedOnly, placedOnly, placedOnly, placedOnly,
        classifiedOnly, classifiedOnly, classifiedOnly, classifiedOnly,
        classifiedOnly, untouched] : List MapComponent).filter
          (fun c => c.isPlaced) =
        [placedOnly, placedOnly, placedOnly, placedOnly, placedOnly] := by
      decide
    have hc : ([placedOnly, placedOnly, placedOnly, placedOnly, placedOnly,
        classifiedOnly, classifiedOnly, classifiedOnly, classifiedOnly,
        classifiedOnly, untouched] : List MapComponent).filter
          (fun c => c.classification.isSome) =
        [classifiedOnly, classifiedOnly, classifiedOnly, classifiedOnly,
         classifiedOnly] := by
      decide
    simp only [calculateCompletionBonus, hall, Bool.false_and, hp, hc]
    norm_num [WEIGHTS]

/-! Bounds on the four sub-scores, for the total-score range claim. -/

/-- The foldl accumulation of the position loop is a sum. -/
theorem foldl_add_eq (f : MapComponent → ℝ) (l : List MapComponent) (a : ℝ) :
    l.foldl (fun acc c => acc + f c) a = a + (l.map f).sum := by
  induction l generalizing a with
  | nil => simp
  | cons head tail ih => rw [List.foldl_cons, ih, List.map_cons, List.sum_cons]; ring

/-- Each loop iteration of the position score contributes 0..100. -/
theorem componentPositionScore_mem (c : MapComponent) :
    0 ≤ componentPositionScore c ∧ componentPositionScore c ≤ 100 := by
  rcases hpos : c.position with _ | pos
  · simp [componentPositionScore, hpos]
  · simp only [componentPositionScore, hpos]
    have hd : 0 ≤ calculateDistance pos c.correctPosition := Real.sqrt_nonneg _
    have h0 : 0 ≤ min (calculateDistance pos c.correctPosition / 141) 1 :=
      le_min (by positivity) zero_le_one
    have h1 : min (calculateDistance pos c.correctPosition / 141) 1 ≤ 1 :=
      min_le_right _ _
    constructor
    · positivity
    · have hsq : (1 - min (calculateDistance pos c.correctPosition / 141) 1) ^ 2 ≤ 1 := by
        nlinarith
      nlinarith

/-- The position sub-score lies in [0, 30]. -/
theorem calculatePositionScore_mem (components : List MapComponent) :
    0 ≤ calculatePositionScore components ∧
      calculatePositionScore components ≤ 30 := by
  simp only [calculatePositionScore]
  set placed := components.filter fun c => c.isPlaced && c.position.isSome with hplaced
  by_cases h : placed.length = 0
  · rw [if_pos h]; norm_num
  · rw [if_neg h]
    have hn : 0 < (placed.length : ℝ) := by
      exact_mod_cast Nat.pos_of_ne_zero h
    rw [foldl_add_eq, zero_add]
    have hsum0 : 0 ≤ (placed.map componentPositionScore).sum :=
      List.sum_nonneg fun x hx => by
        obtain ⟨c, _, rfl⟩ := List.mem_map.mp hx
        exact (componentPositionScore_mem c).1
    have hsum1 : (placed.map componentPositionScore).sum ≤ placed.length * 100 := by
      calc (placed.map componentPositionScore).sum
          ≤ (placed.map componentPositionScore).length • (100 : ℝ) :=
            List.sum_le_card_nsmul _ _ fun x hx => by
              obtain ⟨c, _, rfl⟩ := List.mem_map.mp hx
              exact (componentPositionScore_mem c).2
        _ = placed.length * 100 := by
            rw [List.length_map, nsmul_eq_mul]
    have hdiv : (placed.map componentPositionScore).sum / placed.length ≤ 100 := by
      rw [div_le_iff₀ hn]
      linarith
    have hw : WEIGHTS.positionAccuracy = 30 := rfl
    rw [hw]
    constructor
    · positivity
    · nlinarith [div_nonneg hsum0 (le_of_lt hn)]

/-- The classification sub-score lies in [0, 30]. -/
theorem calculateClassificationScore_mem (components : List MapComponent) :
    0 ≤ calculateClassificationScore components ∧
      calculateClassificationScore components ≤ 30 := by
  simp only [calculateClassificationScore]
  set classified := components.filter fun c => c.classification.isSome
  by_cases h : classified.length = 0
  · rw [if_pos h]; norm_num
  · rw [if_neg h]
    have hn : 0 < (classified.length : ℝ) := by
      exact_mod_cast Nat.pos_of_ne_zero h
    have hle : ((classified.filter fun c =>
        c.classification == c.correctClassification).length : ℝ) ≤
        (classified.length : ℝ) := by
      exact_mod_cast List.length_filter_le _ _
    have hfrac : ((classified.filter fun c =>
        c.classification == c.correctClassification).length : ℝ) /
        (classified.length : ℝ) ≤ 1 := by
      rw [div_le_one hn]; exact hle
    have hw : WEIGHTS.classificationAccuracy = 30 := rfl
    rw [hw]
    constructor
    · positivity
    · nlinarith [div_nonneg (by positivity :
        (0:ℝ) ≤ ((classified.filter fun c =>
          c.classification == c.correctClassification).length : ℝ)) (le_of_lt hn)]

/-- The dependency sub-score lies in [0, 25]. -/
theorem calculateDependencyScore_mem (dependencies : List Dependency) :
    0 ≤ calculateDependencyScore dependencies ∧
      calculateDependencyScore dependencies ≤ 25 := by
  simp only [calculateDependencyScore]
  by_cases h : dependencies.length = 0
  · rw [if_pos h]; norm_num
  · rw [if_neg h]
    have hmax : 0 < ((max dependencies.length CORRECT_DEPENDENCIES.length : ℕ) : ℝ) := by
      have : 0 < max dependencies.length CORRECT_DEPENDENCIES.length :=
        lt_of_lt_of_le (by decide : 0 < CORRECT_DEPENDENCIES.length)
          (le_max_right _ _)
      exact_mod_cast this
    have hle : ((dependencies.countP isCorrectDependency : ℕ) : ℝ) ≤
        ((max dependencies.length CORRECT_DEPENDENCIES.length : ℕ) : ℝ) := by
      exact_mod_cast le_trans (List.countP_le_length _) (le_max_left _ _)
    have hfrac : ((dependencies.countP isCorrectDependency : ℕ) : ℝ) /
        ((max dependencies.length CORRECT_DEPENDENCIES.length : ℕ) : ℝ) ≤ 1 := by
      rw [div_le_one hmax]; exact hle
    have hw : WEIGHTS.dependencyLogic = 25 := rfl
    rw [hw]
    constructor
    · positivity
    · nlinarith [div_nonneg (by positivity :
        (0:ℝ) ≤ ((dependencies.countP isCorrectDependency : ℕ) : ℝ)) (le_of_lt hmax)]

/-- The completion bonus lies in [0, 15]. -/
theorem calculateCompletionBonus_mem (components : List MapComponent) :
    0 ≤ calculateCompletionBonus components ∧
      calculateCompletionBonus components ≤ 15 := by
  simp only [calculateCompletionBonus]
  by_cases h : ((components.all fun c => c.isPlaced) &&
      (components.all fun c => c.classification.isSome)) = true
  · rw [if_pos h]
    exact ⟨by norm_num [WEIGHTS], by norm_num [WEIGHTS]⟩
  · rw [if_neg h]
    have hne : components ≠ [] := by
      rintro rfl
      simp at h
    have hn : 0 < (components.length : ℝ) := by
      have := List.length_pos.mpr hne
      exact_mod_cast this
    have hp : ((components.filter fun c => c.isPlaced).length : ℝ) /
        (components.length : ℝ) ≤ 1 := by
      rw [div_le_one hn]
      exact_mod_cast List.length_filter_le _ _
    have hc : ((components.filter fun c => c.classification.isSome).length : ℝ) /
        (components.length : ℝ) ≤ 1 := by
      rw [div_le_one hn]
      exact_mod_cast List.length_filter_le _ _
    have hp0 : 0 ≤ ((components.filter fun c => c.isPlaced).length : ℝ) /
        (components.length : ℝ) := by positivity
    have hc0 : 0 ≤ ((components.filter fun c =>
        c.classification.isSome).length : ℝ) / (components.length : ℝ) := by
      positivity
    have hw : WEIGHTS.completionBonus = 15 := rfl
    rw [hw]
    constructor
    · nlinarith
    · nlinarith

/-- C1 counterexample: with both collections empty every vacuous
universal in the completion bonus holds, so the total score is the full
completion bonus 15, not the 0 the claim requires. -/
theorem c1_counterexample_empty :
    calculateTotalScore [] [] = 15 ∧ calculateTotalScore [] [] ≠ 0 := by
  have h : calculateTotalScore [] [] = 15 := by
    simp only [calculateTotalScore, calculatePositionScore,
      calculateClassificationScore, calculateDependencyScore,
      calculateCompletionBonus, jsRound]
    norm_num [WEIGHTS]
  exact ⟨h, by rw [h]; norm_num⟩

/-- C1 (amended): the total score is always an integer in [0, 100]; on
empty collections it is 15 (the vacuously awarded completion bonus), not
0. -/
theorem c1_total_score_range (components : List MapComponent)
    (dependencies : List Dependency) :
    0 ≤ calculateTotalScore components dependencies ∧
      calculateTotalScore components dependencies ≤ 100 := by
  obtain ⟨hp0, hp1⟩ := calculatePositionScore_mem components
  obtain ⟨hc0, hc1⟩ := calculateClassificationScore_mem components
  obtain ⟨hd0, hd1⟩ := calculateDependencyScore_mem dependencies
  obtain ⟨hb0, hb1⟩ := calculateCompletionBonus_mem components
  simp only [calculateTotalScore, jsRound]
  constructor
  · exact Int.le_floor.mpr (by push_cast; linarith)
  · have : ⌊calculatePositionScore components +
        calculateClassificationScore components +
        calculateDependencyScore dependencies +
        calculateCompletionBonus components + 1 / 2⌋ < 101 :=
      Int.floor_lt.mpr (by push_cast; linarith)
    omega

/-- The position sub-score as the claim words it: for each placed item
the quadratic decay (1 - min(distance / maxDiagonal, 1))^2 on a 0..100
per-item scale, averaged over placed items only (unplaced items
contribute to neither numerator nor denominator, zero placed items give
0), scaled by the weight 30 over 100; the normalizing diagonal is left a
parameter so it can be instantiated both with the true diagonal of the
100 by 100 space and with the constant of the code. -/
noncomputable def positionScoreAsSpecified (maxDiagonal : ℝ)
    (components : List MapComponent) : ℝ :=
  let placed := components.filter fun c => c.isPlaced && c.position.isSome
  if placed.length = 0 then 0
  else
    ((placed.map fun c =>
        match c.position with
        | none => 0
        | some pos =>
            (1 - min (calculateDistance pos c.correctPosition / maxDiagonal) 1)
              ^ 2 * 100).sum / placed.length) * (30 / 100)

/-- A single placed item at distance 5 from its target position. -/
def misplacedItem : MapComponent :=
  { id := "misplaced", name := "", description := ""
    correctEvolution := .product, correctClassification := some .build
    correctPosition := ⟨3, 4⟩, position := some ⟨0, 0⟩
    classification := none, isPlaced := true }

/-- The distance of the example item is exactly 5. -/
theorem misplacedItem_distance : calculateDistance ⟨0, 0⟩ ⟨3, 4⟩ = 5 := by
  simp only [calculateDistance]
  push_cast
  rw [show ((0:ℝ) - 3) * ((0:ℝ) - 3) + ((0:ℝ) - 4) * ((0:ℝ) - 4) = 5 ^ 2 by norm_num]
  exact Real.sqrt_sq (by norm_num)

/-- C4 counterexample: the code normalizes by the constant 141, not by
the maximum possible diagonal distance sqrt 20000 of the 100 by 100
space that the claim names; at a placed item of distance 5 the two
formulas give different sub-scores. -/
theorem c4_counterexample :
    calculatePositionScore [misplacedItem] ≠
      positionScoreAsSpecified (Real.sqrt 20000) [misplacedItem] := by
  have hfilter : ([misplacedItem] : List MapComponent).filter
      (fun c => c.isPlaced && c.position.isSome) = [misplacedItem] := by decide
  have hsqrt_pos : (0:ℝ) < Real.sqrt 20000 := Real.sqrt_pos.mpr (by norm_num)
  have hs : Real.sqrt 20000 ^ 2 = 20000 := Real.sq_sqrt (by norm_num)
  have h141 : (141:ℝ) < Real.sqrt 20000 := by
    nlinarith [hs, Real.sqrt_nonneg (20000:ℝ)]
  have hv_lt : 5 / Real.sqrt 20000 < 5 / 141 :=
    div_lt_div_of_pos_left (by norm_num) (by norm_num) h141
  have hu_lt_one : (5:ℝ) / 141 < 1 := by norm_num
  have hmin_u : min ((5:ℝ) / 141) 1 = 5 / 141 := min_eq_left (le_of_lt hu_lt_one)
  have hmin_v : min ((5:ℝ) / Real.sqrt 20000) 1 = 5 / Real.sqrt 20000 :=
    min_eq_left (le_of_lt (lt_trans hv_lt hu_lt_one))
  have hsq : ((1:ℝ) - 5 / 141) ^ 2 < (1 - 5 / Real.sqrt 20000) ^ 2 := by
    nlinarith [hv_lt, hu_lt_one]
  have hcomp : componentPositionScore misplacedItem = (1 - 5 / 141) ^ 2 * 100 := by
    show (1 - min (calculateDistance ⟨0, 0⟩ ⟨3, 4⟩ / 141) 1) ^ 2 * 100 = _
    rw [misplacedItem_distance, hmin_u]
  have hL : calculatePositionScore [misplacedItem] = (1 - 5 / 141) ^ 2 * 30 := by
    simp only [calculatePositionScore, hfilter, List.length_cons, List.length_nil,
      List.foldl_cons, List.foldl_nil, zero_add, hcomp]
    rw [if_neg (by norm_num)]
    have hw : WEIGHTS.positionAccuracy = 30 := rfl
    rw [hw]
    push_cast
    ring
  have hR : positionScoreAsSpecified (Real.sqrt 20000) [misplacedItem] =
      (1 - 5 / Real.sqrt 20000) ^ 2 * 30 := by
    simp only [positionScoreAsSpecified, hfilter, List.length_cons,
      List.length_nil, List.map_cons, List.map_nil, List.sum_cons, List.sum_nil]
    rw [if_neg (by norm_num)]
    have hmatch : (match misplacedItem.position with
        | none => (0:ℝ)
        | some pos =>
            (1 - min (calculateDistance pos misplacedItem.correctPosition /
              Real.sqrt 20000) 1) ^ 2 * 100) =
        (1 - 5 / Real.sqrt 20000) ^ 2 * 100 := by
      show (1 - min (calculateDistance ⟨0, 0⟩ ⟨3, 4⟩ / Real.sqrt 20000) 1) ^ 2
          * 100 = _
      rw [misplacedItem_distance, hmin_v]
    rw [hmatch]
    push_cast
    ring
  rw [hL, hR]
  exact ne_of_lt (by nlinarith [hsq])

/-- C4 (amended): the position sub-score is exactly the claim formula
with the normalizing constant 141 of the code in place of the true
maximum diagonal distance of the space. -/
theorem c4_position_score_formula (components : List MapComponent) :
    calculatePositionScore components = positionScoreAsSpecified 141 components := by
  simp only [calculatePositionScore, positionScoreAsSpecified, foldl_add_eq,
    zero_add]
  rfl

/-! Helper lemmas about atan2 and the corner half angle. -/

/-- atan2 in the right half plane. -/
theorem atan2_pos_x (y x : ℝ) (hx : 0 < x) :
    atan2 y x = Real.arctan (y / x) := by
  unfold atan2
  rw [if_pos hx]

/-- atan2 straight up. -/
theorem atan2_up (y : ℝ) (hy : 0 < y) : atan2 y 0 = Real.pi / 2 := by
  unfold atan2
  rw [if_neg (lt_irrefl 0), if_neg (lt_irrefl 0), if_pos hy]

/-- atan2 straight down. -/
theorem atan2_down (y : ℝ) (hy : y < 0) : atan2 y 0 = -(Real.pi / 2) := by
  unfold atan2
  rw [if_neg (lt_irrefl 0), if_neg (lt_irrefl 0),
    if_neg (not_lt.mpr hy.le), if_pos hy]

/-- The corner half angle of the card box is positive. -/
theorem cornerAngle_pos : 0 < atan2 (60 : ℝ) 95 := by
  rw [atan2_pos_x _ _ (by norm_num)]
  have h := Real.arctan_strictMono (show (0:ℝ) < 60 / 95 by norm_num)
  rwa [Real.arctan_zero] at h

/-- The corner half angle of the card box is below pi over two. -/
theorem cornerAngle_lt : atan2 (60 : ℝ) 95 < Real.pi / 2 := by
  rw [atan2_pos_x _ _ (by norm_num)]
  exact Real.arctan_lt_pi_div_two _

/-- On a perfectly vertical connection the direction angle is plus or
minus pi over two, the top or bottom branch is taken, and the unguarded
division by the tangent of that angle — whose cosine is zero — makes the
exact-real destination undefined. -/
theorem getEdgeIntersection_vertical (fromPoint toPoint : Point)
    (hx : toPoint.x = fromPoint.x) (hy : toPoint.y ≠ fromPoint.y) :
    getEdgeIntersection fromPoint toPoint = none := by
  have hdx : toPoint.x - fromPoint.x = 0 := by rw [hx, sub_self]
  have hdy : toPoint.y - fromPoint.y ≠ 0 := sub_ne_zero.mpr hy
  simp only [getEdgeIntersection, CARD_WIDTH, CARD_HEIGHT, ARROWHEAD_LENGTH, hdx]
  have h60 : (120 : ℝ) / 2 = 60 := by norm_num
  have h95 : (190 : ℝ) / 2 = 95 := by norm_num
  rw [h60, h95]
  have hlen : Real.sqrt (0 * 0 + (toPoint.y - fromPoint.y) *
      (toPoint.y - fromPoint.y)) ≠ 0 := by
    rw [zero_mul, zero_add, show (toPoint.y - fromPoint.y) *
        (toPoint.y - fromPoint.y) = (toPoint.y - fromPoint.y) ^ 2 by ring,
      Real.sqrt_sq_eq_abs]
    exact abs_ne_zero.mpr hdy
  rw [if_neg hlen]
  rcases hdy.lt_or_lt with hneg | hpos
  · rw [atan2_down _ hneg, abs_neg, abs_of_pos Real.pi_div_two_pos]
    rw [if_neg (not_lt.mpr cornerAngle_lt.le)]
    rw [if_neg (not_lt.mpr (by linarith [cornerAngle_lt]))]
    rw [if_neg (not_lt.mpr (by linarith [Real.pi_div_two_pos]))]
    rw [if_pos (Or.inl (by rw [Real.cos_neg]; exact Real.cos_pi_div_two))]
    rfl
  · rw [atan2_up _ hpos, abs_of_pos Real.pi_div_two_pos]
    rw [if_neg (not_lt.mpr cornerAngle_lt.le)]
    rw [if_neg (not_lt.mpr (by linarith [cornerAngle_lt]))]
    rw [if_pos Real.pi_div_two_pos]
    rw [if_pos (Or.inl Real.cos_pi_div_two)]
    rfl

/-- On a perfectly horizontal connection the direction angle is 0 or pi,
the right or left branch is taken, the tangent there is defined, and a
destination point is produced. -/
theorem getEdgeIntersection_horizontal (fromPoint toPoint : Point)
    (hy : toPoint.y = fromPoint.y) (hx : toPoint.x ≠ fromPoint.x) :
    ∃ p, getEdgeIntersection fromPoint toPoint = some p := by
  have hdy : toPoint.y - fromPoint.y = 0 := by rw [hy, sub_self]
  have hdx : toPoint.x - fromPoint.x ≠ 0 := sub_ne_zero.mpr hx
  simp only [getEdgeIntersection, CARD_WIDTH, CARD_HEIGHT, ARROWHEAD_LENGTH, hdy]
  have h60 : (120 : ℝ) / 2 = 60 := by norm_num
  have h95 : (190 : ℝ) / 2 = 95 := by norm_num
  rw [h60, h95]
  have hlen : Real.sqrt ((toPoint.x - fromPoint.x) *
      (toPoint.x - fromPoint.x) + 0 * 0) ≠ 0 := by
    rw [zero_mul, add_zero, show (toPoint.x - fromPoint.x) *
        (toPoint.x - fromPoint.x) = (toPoint.x - fromPoint.x) ^ 2 by ring,
      Real.sqrt_sq_eq_abs]
    exact abs_ne_zero.mpr hdx
  rw [if_neg hlen]
  rcases hdx.lt_or_lt with hneg | hpos
  · have hangle : atan2 0 (toPoint.x - fromPoint.x) = Real.pi := by
      unfold atan2
      rw [if_neg (not_lt.mpr hneg.le), if_pos hneg, if_pos le_rfl,
        zero_div, Real.arctan_zero, zero_add]
    rw [hangle, abs_of_pos Real.pi_pos]
    rw [if_neg (not_lt.mpr (le_of_lt (lt_trans cornerAngle_lt
      (by linarith [Real.pi_pos]))))]
    rw [if_pos (by linarith [cornerAngle_pos])]
    rw [if_neg (by rw [Real.cos_pi]; norm_num)]
    exact ⟨_, rfl⟩
  · have hangle : atan2 0 (toPoint.x - fromPoint.x) = 0 := by
      rw [atan2_pos_x _ _ hpos, zero_div, Real.arctan_zero]
    rw [hangle, abs_zero]
    rw [if_pos cornerAngle_pos]
    rw [if_neg (by rw [Real.cos_zero]; norm_num)]
    exact ⟨_, rfl⟩

/-- C3 counterexample: on the perfectly vertical connection from
(50, 0) to (50, 100) the routine divides by the tangent of pi over two,
whose cosine is zero; no guard substitutes a fallback, so the exact-real
destination is undefined rather than finite. -/
theorem c3_counterexample_vertical :
    getEdgeIntersection ⟨50, 0⟩ ⟨50, 100⟩ = none :=
  getEdgeIntersection_vertical ⟨50, 0⟩ ⟨50, 100⟩ rfl (by norm_num)

/-- C3 (amended): the Edge Router has no guard for axis-aligned
connections; horizontal connections produce a destination without any
hazardous division, while vertical connections divide by the tangent of
plus or minus pi over two (zero cosine) and the exact-real destination
is undefined — the run-time value is finite only as an IEEE artifact of
the rounded pi over two. -/
theorem c3_axis_aligned (fromPoint toPoint : Point) :
    (toPoint.y = fromPoint.y → toPoint.x ≠ fromPoint.x →
      ∃ p, getEdgeIntersection fromPoint toPoint = some p) ∧
    (toPoint.x = fromPoint.x → toPoint.y ≠ fromPoint.y →
      getEdgeIntersection fromPoint toPoint = none) :=
  ⟨fun hy hx => getEdgeIntersection_horizontal fromPoint toPoint hy hx,
   fun hx hy => getEdgeIntersection_vertical fromPoint toPoint hx hy⟩

/-- C3 witness: the amended statement applied to the horizontal
connection (0,0) to (100,0) and the vertical connection (0,0) to
(0,100). -/
theorem c3_witness :
    (∃ p, getEdgeIntersection ⟨0, 0⟩ ⟨100, 0⟩ = some p) ∧
    getEdgeIntersection ⟨0, 0⟩ ⟨0, 100⟩ = none :=
  ⟨(c3_axis_aligned ⟨0, 0⟩ ⟨100, 0⟩).1 rfl (by norm_num),
   (c3_axis_aligned ⟨0, 0⟩ ⟨0, 100⟩).2 rfl (by norm_num)⟩

/-- The Edge Router destination as C5 words it: with direction angle
θ = atan2 dy dx and corner half angle φ = atan2 60 95 (the half height
over the half width of the fixed card box), the struck edge of the
target box is the right one when the absolute angle is below φ, the left
one when it is above π - φ, and otherwise the top or bottom one by the
sign of θ; the edge intersection comes from the tangent of θ scaled by
the relevant half extent, the point is pulled back by the clearance 10
along the reverse unit direction, and none marks an exact-real division
by zero (degenerate direction or vanishing cosine or sine). -/
noncomputable def edgeDestinationAsSpecified (sourceCenter targetCenter : Point) :
    Option Point :=
  let dx := targetCenter.x - sourceCenter.x
  let dy := targetCenter.y - sourceCenter.y
  let theta := atan2 dy dx
  let phi := atan2 60 95
  let len := Real.sqrt (dx * dx + dy * dy)
  if len = 0 then none
  else
    let pullback : Point → Point := fun p =>
      ⟨p.x - dx / len * 10, p.y - dy / len * 10⟩
    if |theta| < phi then
      if Real.cos theta = 0 then none
      else some (pullback
        ⟨targetCenter.x - 95, targetCenter.y - 95 * Real.tan theta⟩)
    else if Real.pi - phi < |theta| then
      if Real.cos theta = 0 then none
      else some (pullback
        ⟨targetCenter.x + 95, targetCenter.y + 95 * Real.tan theta⟩)
    else if 0 < theta then
      if Real.cos theta = 0 ∨ Real.sin theta = 0 then none
      else some (pullback
        ⟨targetCenter.x - 60 / Real.tan theta, targetCenter.y - 60⟩)
    else
      if Real.cos theta = 0 ∨ Real.sin theta = 0 then none
      else some (pullback
        ⟨targetCenter.x - 60 / Real.tan theta, targetCenter.y + 60⟩)

/-- C5: the Edge Router computes exactly the destination the claim
describes — edge selection by comparing the absolute direction angle
with the corner half angle, intersection from the scaled tangent,
pullback by the clearance along the reverse unit direction — and the
rendered segment keeps the source endpoint as the unmodified source box
center. -/
theorem c5_edge_router_matches_spec (fromPoint toPoint : Point) :
    getEdgeIntersection fromPoint toPoint =
      edgeDestinationAsSpecified fromPoint toPoint ∧
    dependencySegment fromPoint toPoint =
      (edgeDestinationAsSpecified fromPoint toPoint).map
        fun p => (fromPoint, p) := by
  have h1 : getEdgeIntersection fromPoint toPoint =
      edgeDestinationAsSpecified fromPoint toPoint := by
    simp only [getEdgeIntersection, edgeDestinationAsSpecified,
      CARD_WIDTH, CARD_HEIGHT, ARROWHEAD_LENGTH]
    have h60 : (120 : ℝ) / 2 = 60 := by norm_num
    have h95 : (190 : ℝ) / 2 = 95 := by norm_num
    rw [h60, h95]
    by_cases hlen : Real.sqrt
        ((toPoint.x - fromPoint.x) * (toPoint.x - fromPoint.x) +
          (toPoint.y - fromPoint.y) * (toPoint.y - fromPoint.y)) = 0
    · rw [if_pos hlen, if_pos hlen]
    · rw [if_neg hlen, if_neg hlen]
      split_ifs <;> rfl
  exact ⟨h1, by simp only [dependencySegment, h1]⟩

end MincePie
